import Mathlib

/-!
Shallow embedding of the GraphQL book/author server (`src/server.js`).

The server keeps two in-process arrays, `authors` and `books`, and binds
resolver functions to schema fields.  We model the two arrays as lists in a
`Store` structure, each resolver as a pure function on the store, and the two
mutations as functions returning the created record together with the updated
store.  JavaScript's `undefined` (an absent object field or an omitted
argument) is modelled as `Option.none`; the strict-equality tests
`x === y` that the resolvers use always compare a number with a possibly
`undefined` value, and `undefined === n` is `false` for every number `n`,
which the `matchesId` function below reproduces.
-/

/-- A record living in the `books` array.  Records created by `addBook`
carry an `authorId`; the author records misfiled into `books` by
`addAuthor` have no `authorId` field (JS `undefined`), modelled as
`none`. -/
structure BookRec where
  id : Int
  name : String
  authorId : Option Int
deriving DecidableEq

/-- A record living in the `authors` array: `{ id, name }`. -/
structure Author where
  id : Int
  name : String
deriving DecidableEq

/-- The in-memory data store: the two module-level arrays of `server.js`. -/
structure Store where
  authors : List Author
  books : List BookRec
deriving DecidableEq

/-- The initial `authors` array (server.js lines 19-24). -/
def initAuthors : List Author :=
  [⟨1, "J.K. Rowling"⟩,
   ⟨2, "George R.R. Martin"⟩,
   ⟨3, "J.R.R. Tolkien"⟩,
   ⟨4, "Isaac Asimov"⟩]

/-- The initial `books` array (server.js lines 27-36). -/
def initBooks : List BookRec :=
  [⟨1, "Harry Potter and the Philosopher's Stone", some 1⟩,
   ⟨2, "Harry Potter and the Chamber of Secrets", some 1⟩,
   ⟨3, "A Game of Thrones", some 2⟩,
   ⟨4, "A Clash of Kings", some 2⟩,
   ⟨5, "The Hobbit", some 3⟩,
   ⟨6, "The Lord of the Rings", some 3⟩,
   ⟨7, "Foundation", some 4⟩,
   ⟨8, "I, Robot", some 4⟩]

/-- The store at process start. -/
def initStore : Store := ⟨initAuthors, initBooks⟩

/-- The strict-equality test `recId === argId` the resolvers use, where the
right operand may be `undefined` (an omitted argument or an absent field):
`x === undefined` is `false` for every number `x`. -/
def matchesId (argId : Option Int) (recId : Int) : Bool :=
  match argId with
  | some i => recId == i
  | none => false

/-- Root query field `book(id)`:
`books.find((book) => book.id === args.id)` (server.js line 79). -/
def bookQuery (s : Store) (argId : Option Int) : Option BookRec :=
  s.books.find? (fun b => matchesId argId b.id)

/-- Root query field `author(id)`:
`authors.find((author) => author.id === args.id)` (server.js lines 97-98). -/
def authorQuery (s : Store) (argId : Option Int) : Option Author :=
  s.authors.find? (fun a => matchesId argId a.id)

/-- Root query field `books`: `resolve: () => books` (server.js line 84). -/
def booksQuery (s : Store) : List BookRec := s.books

/-- Root query field `authors`: `resolve: () => authors` (server.js line 89). -/
def authorsQuery (s : Store) : List Author := s.authors

/-- Field `Book.author`:
`authors.find((author) => author.id === book.authorId)` (server.js line 48).
When the record has no `authorId` (`undefined`), no author matches. -/
def bookAuthor (s : Store) (b : BookRec) : Option Author :=
  s.authors.find? (fun a => matchesId b.authorId a.id)

/-- Field `Author.books`:
`books.filter((book) => book.authorId === author.id)` (server.js line 63). -/
def authorBooks (s : Store) (a : Author) : List BookRec :=
  s.books.filter (fun b => b.authorId == some a.id)

/-- Mutation `addBook(name, authorId)` (server.js lines 114-122): builds
`{ id: books.length + 1, name, authorId }`, pushes it onto `books`, and
returns it.  The result is the created record and the updated store. -/
def addBook (s : Store) (name : String) (authorId : Int) : BookRec × Store :=
  let book : BookRec := ⟨(s.books.length : Int) + 1, name, some authorId⟩
  (book, { s with books := s.books ++ [book] })

/-- Mutation `addAuthor(name)` (server.js lines 130-137): builds
`{ id: authors.length + 1, name }`, pushes it onto `books` (not `authors`),
and returns it.  The pushed object has no `authorId` field, hence `none`. -/
def addAuthor (s : Store) (name : String) : Author × Store :=
  let author : Author := ⟨(s.authors.length : Int) + 1, name⟩
  (author, { s with books := s.books ++ [⟨author.id, author.name, none⟩] })

/-- The operations that mutate the store. -/
inductive Op where
  | addBook (name : String) (authorId : Int)
  | addAuthor (name : String)
deriving DecidableEq

/-- Apply one mutation to the store, discarding the returned record. -/
def applyOp (s : Store) : Op → Store
  | .addBook n aid => (addBook s n aid).2
  | .addAuthor n => (addAuthor s n).2

/-- Run a sequence of mutations from a given store. -/
def runOps (s : Store) : List Op → Store
  | [] => s
  | op :: ops => runOps (applyOp s op) ops

/-- Recognizer for `addBook` operations. -/
def Op.isAddBook : Op → Bool
  | .addBook _ _ => true
  | .addAuthor _ => false

example : bookQuery initStore (some 3) = some ⟨3, "A Game of Thrones", some 2⟩ := by decide
example : bookQuery initStore (some 99) = none := by decide
example : bookQuery initStore none = none := by decide
example : (runOps initStore [Op.addAuthor "Ursula K. Le Guin"]).books.length = 9 := by decide

/-- Helper: a successful `List.find?` returns the earliest satisfying
element: the list splits as `l1 ++ a :: l2` with the predicate false on all
of `l1`. -/
theorem find_first {α : Type} (p : α → Bool) (l : List α) (a : α)
    (h : l.find? p = some a) :
    p a = true ∧ ∃ l1 l2, l = l1 ++ a :: l2 ∧ ∀ x ∈ l1, p x = false := by
  induction l with
  | nil => simp [List.find?] at h
  | cons x xs ih =>
    by_cases hx : p x = true
    · rw [List.find?_cons_of_pos _ hx] at h
      obtain rfl : x = a := by injection h
      exact ⟨hx, [], xs, rfl, by simp⟩
    · rw [List.find?_cons_of_neg _ hx] at h
      obtain ⟨pa, l1, l2, hsplit, hall⟩ := ih h
      refine ⟨pa, x :: l1, l2, by simp [hsplit], ?_⟩
      intro y hy
      rcases List.mem_cons.mp hy with rfl | hmem
      · exact Bool.eq_false_iff.mpr hx
      · exact hall y hmem

/-- Helper: every mutation leaves the `authors` array untouched. -/
theorem applyOp_authors (s : Store) (op : Op) : (applyOp s op).authors = s.authors := by
  cases op <;> rfl

/-- Helper: running any sequence of mutations leaves `authors` untouched. -/
theorem runOps_authors (s : Store) (ops : List Op) :
    (runOps s ops).authors = s.authors := by
  induction ops generalizing s with
  | nil => rfl
  | cons op ops ih => rw [runOps, ih, applyOp_authors]

/-- Helper: every mutation appends exactly one record to `books`. -/
theorem applyOp_books (s : Store) (op : Op) :
    ∃ r, (applyOp s op).books = s.books ++ [r] := by
  cases op <;> exact ⟨_, rfl⟩

/-- Helper: running any sequence of mutations only appends to `books`. -/
theorem runOps_books_append (s : Store) (ops : List Op) :
    ∃ t, (runOps s ops).books = s.books ++ t := by
  induction ops generalizing s with
  | nil => exact ⟨[], by simp [runOps]⟩
  | cons op ops ih =>
    obtain ⟨t, ht⟩ := ih (applyOp s op)
    obtain ⟨r, hr⟩ := applyOp_books s op
    exact ⟨r :: t, by rw [runOps, ht, hr]; simp⟩

/-- Helper: the strict-equality test succeeds exactly when the optional id is
present and equal to the record id. -/
theorem matchesId_iff (o : Option Int) (x : Int) :
    matchesId o x = true ↔ some x = o := by
  cases o with
  | none => simp [matchesId]
  | some i => simp only [matchesId, beq_iff_eq, Option.some.injEq]

/-- C1: `addAuthor(name)` returns the record
`{ id: authors.length + 1, name }`, appends it to the Book sequence (with no
`authorId` field), and leaves the Author sequence unchanged. -/
theorem addAuthor_misfiles_into_books (s : Store) (name : String) :
    (addAuthor s name).1 = ⟨(s.authors.length : Int) + 1, name⟩ ∧
    (addAuthor s name).2.books
      = s.books ++ [⟨(s.authors.length : Int) + 1, name, none⟩] ∧
    (addAuthor s name).2.authors = s.authors :=
  ⟨rfl, rfl, rfl⟩

/-- C3: `addBook(name, authorId)` appends to the end of the Book sequence a
record with `id = books.length + 1` and the given `name` and `authorId`
(for every `authorId`, dangling or not — no existence check), and the
returned record is exactly the appended one. -/
theorem addBook_appends (s : Store) (name : String) (authorId : Int) :
    (addBook s name authorId).1
      = ⟨(s.books.length : Int) + 1, name, some authorId⟩ ∧
    (addBook s name authorId).2.books = s.books ++ [(addBook s name authorId).1] ∧
    (addBook s name authorId).2.authors = s.authors :=
  ⟨rfl, rfl, rfl⟩

/-- C7: with the `id` argument omitted (`undefined`), both `book` and
`author` root queries resolve to absent in every store, never to the first
or any other record. -/
theorem omitted_id_yields_absent (s : Store) :
    bookQuery s none = none ∧ authorQuery s none = none := by
  constructor <;>
    · apply List.find?_eq_none.mpr
      intro x _
      exact fun h => nomatch h

/-- C8: after any sequence of mutations, `books()` returns the pre-existing
records first, unchanged and in their original order, with the newly
appended records after them; `authors()` returns exactly the original
records. -/
theorem store_append_only (s : Store) (ops : List Op) :
    (∃ t, booksQuery (runOps s ops) = booksQuery s ++ t) ∧
    authorsQuery (runOps s ops) = authorsQuery s :=
  ⟨runOps_books_append s ops, runOps_authors s ops⟩

/-- C4: `book(id)` with a present argument returns a record carrying exactly
that id, and returns absent precisely when no record in the Book sequence
has that id; a lookup miss is absence, never an error. -/
theorem book_lookup_exact (s : Store) (i : Int) :
    (∀ r, bookQuery s (some i) = some r → r.id = i) ∧
    (bookQuery s (some i) = none ↔ ∀ r ∈ s.books, r.id ≠ i) := by
  constructor
  · intro r hr
    rw [bookQuery] at hr
    have hp := List.find?_some hr
    exact Option.some.inj ((matchesId_iff (some i) r.id).mp hp)
  · rw [bookQuery, List.find?_eq_none]
    constructor
    · intro h r hr hid
      exact h r hr ((matchesId_iff _ _).mpr (by rw [hid]))
    · intro h r hr hp
      exact h r hr (Option.some.inj ((matchesId_iff _ _).mp hp))

/-- Witness for C4 at a concrete store and ids: id 3 is present in the
initial store and the returned record carries id 3. -/
theorem book_lookup_exact_witness :
    (⟨3, "A Game of Thrones", some 2⟩ : BookRec).id = 3 :=
  (book_lookup_exact initStore 3).1 ⟨3, "A Game of Thrones", some 2⟩ (by decide)

/-- C5: `Book.author` resolves to the first author in sequence order whose
id equals the record's `authorId`, and to absent exactly when no author
matches (in particular for a dangling or missing `authorId`). -/
theorem book_author_first_match (s : Store) (b : BookRec) :
    (∀ a, bookAuthor s b = some a →
      some a.id = b.authorId ∧
      ∃ l1 l2, s.authors = l1 ++ a :: l2 ∧ ∀ x ∈ l1, some x.id ≠ b.authorId) ∧
    (bookAuthor s b = none ↔ ∀ a ∈ s.authors, some a.id ≠ b.authorId) := by
  constructor
  · intro a ha
    rw [bookAuthor] at ha
    obtain ⟨pa, l1, l2, hsplit, hall⟩ := find_first _ _ _ ha
    refine ⟨(matchesId_iff _ _).mp pa, l1, l2, hsplit, ?_⟩
    intro x hx hcontra
    have hfalse := hall x hx
    rw [(matchesId_iff _ _).mpr hcontra] at hfalse
    exact Bool.true_eq_false.mp hfalse
  · rw [bookAuthor, List.find?_eq_none]
    constructor
    · intro h a ha hcontra
      exact h a ha ((matchesId_iff _ _).mpr hcontra)
    · intro h a ha hp
      exact h a ha ((matchesId_iff _ _).mp hp)

/-- Witness for C5 at a concrete store and record: the initial book with
`authorId = 3` resolves to Tolkien, the first (and only) matching author. -/
theorem book_author_first_match_witness :
    some (⟨3, "J.R.R. Tolkien"⟩ : Author).id
        = (⟨5, "The Hobbit", some 3⟩ : BookRec).authorId ∧
    ∃ l1 l2, initStore.authors = l1 ++ (⟨3, "J.R.R. Tolkien"⟩ : Author) :: l2 ∧
      ∀ x ∈ l1, some x.id ≠ (⟨5, "The Hobbit", some 3⟩ : BookRec).authorId :=
  (book_author_first_match initStore ⟨5, "The Hobbit", some 3⟩).1
    ⟨3, "J.R.R. Tolkien"⟩ (by decide)

/-- C10: when several records in the Book sequence carry the queried id,
`book(id)` deterministically returns the earliest one in sequence order. -/
theorem book_lookup_earliest (s : Store) (i : Int) (r : BookRec)
    (h : bookQuery s (some i) = some r) :
    r.id = i ∧ ∃ l1 l2, s.books = l1 ++ r :: l2 ∧ ∀ b ∈ l1, b.id ≠ i := by
  rw [bookQuery] at h
  obtain ⟨pr, l1, l2, hsplit, hall⟩ := find_first _ _ _ h
  refine ⟨Option.some.inj ((matchesId_iff _ _).mp pr), l1, l2, hsplit, ?_⟩
  intro b hb hbid
  have hfalse := hall b hb
  rw [(matchesId_iff _ _).mpr (by rw [hbid])] at hfalse
  exact Bool.true_eq_false.mp hfalse

/-- Witness for C10: after one `addAuthor`, the Book sequence holds two
records with id 5 (the count of id 5 is 2), and `book(5)` returns the
earliest of them, the original "The Hobbit" record. -/
theorem book_lookup_earliest_witness :
    ((runOps initStore [Op.addAuthor "Ursula K. Le Guin"]).books.map BookRec.id).count 5 = 2 ∧
    ((⟨5, "The Hobbit", some 3⟩ : BookRec).id = 5 ∧
      ∃ l1 l2, (runOps initStore [Op.addAuthor "Ursula K. Le Guin"]).books
          = l1 ++ (⟨5, "The Hobbit", some 3⟩ : BookRec) :: l2 ∧
        ∀ b ∈ l1, b.id ≠ 5) :=
  ⟨by decide,
   book_lookup_earliest (runOps initStore [Op.addAuthor "Ursula K. Le Guin"]) 5
     ⟨5, "The Hobbit", some 3⟩ (by decide)⟩

/-- C6: `Author.books` is a sublist of the Book sequence (so it preserves
the original order and invents no records), and for every record its
multiplicity in the result is its multiplicity among the matching records
of the Book sequence (so no matching record is dropped and no
non-matching record included). -/
theorem author_books_exact_filter (s : Store) (a : Author) :
    List.Sublist (authorBooks s a) s.books ∧
    ∀ b : BookRec, (authorBooks s a).count b
      = if b.authorId = some a.id then s.books.count b else 0 := by
  refine ⟨List.filter_sublist _, ?_⟩
  intro b
  by_cases hb : b.authorId = some a.id
  · rw [if_pos hb, authorBooks, List.count_filter (by simp [hb])]
  · rw [if_neg hb]
    apply List.count_eq_zero.mpr
    intro hmem
    rw [authorBooks, List.mem_filter] at hmem
    exact hb (by simpa using hmem.2)

/-- C9: in every reachable state the Author sequence still equals the four
initial authors; `addAuthor` in any reachable state returns a record whose
id is the initial author count plus one (hence 5 on every call, duplicated
across repeated calls); that record is not among the records `authors`
returns and `author(id)` at its id resolves to absent. -/
theorem authors_never_change (ops : List Op) (name : String) :
    authorsQuery (runOps initStore ops) = initAuthors ∧
    (addAuthor (runOps initStore ops) name).1.id = (initAuthors.length : Int) + 1 ∧
    (addAuthor (runOps initStore ops) name).1 ∉ authorsQuery (runOps initStore ops) ∧
    authorQuery (runOps initStore ops)
      (some (addAuthor (runOps initStore ops) name).1.id) = none := by
  have hA : (runOps initStore ops).authors = initAuthors := runOps_authors initStore ops
  have hid : (addAuthor (runOps initStore ops) name).1.id = 5 := by
    show ((runOps initStore ops).authors.length : Int) + 1 = 5
    rw [hA]
    rfl
  have hlen : ((initAuthors.length : Int) + 1) = 5 := by rfl
  refine ⟨hA, by rw [hid, hlen], ?_, ?_⟩
  · rw [authorsQuery, hA]
    intro hmem
    have hids : (addAuthor (runOps initStore ops) name).1.id
        ∈ initAuthors.map Author.id :=
      List.mem_map_of_mem _ hmem
    rw [hid] at hids
    simp [initAuthors] at hids
  · rw [hid, authorQuery, hA]
    decide

/-- The integer list `[1, 2, ..., n]`. -/
def canonicalIds : Nat → List Int
  | 0 => []
  | n + 1 => canonicalIds n ++ [(n : Int) + 1]

/-- Helper: every entry of `canonicalIds n` is at most `n`. -/
theorem canonicalIds_le (n : Nat) (x : Int) (hx : x ∈ canonicalIds n) :
    x ≤ (n : Int) := by
  induction n with
  | zero => simp [canonicalIds] at hx
  | succ k ih =>
    rw [canonicalIds] at hx
    rcases List.mem_append.mp hx with h1 | h2
    · have := ih h1
      omega
    · have : x = (k : Int) + 1 := by simpa using h2
      omega

/-- Helper: `canonicalIds n` has no duplicates. -/
theorem canonicalIds_nodup (n : Nat) : (canonicalIds n).Nodup := by
  induction n with
  | zero => simp [canonicalIds]
  | succ k ih =>
    rw [canonicalIds]
    refine List.Nodup.append ih (List.nodup_singleton _) ?_
    intro x hx hx2
    have hle := canonicalIds_le k x hx
    have : x = (k : Int) + 1 := by simpa using hx2
    omega

/-- The ids in the Book sequence are exactly `1, 2, ..., length` in order —
the shape the `id = books.length + 1` assignment keeps as long as every
record is appended by `addBook`. -/
def idsCanonical (s : Store) : Prop :=
  s.books.map BookRec.id = canonicalIds s.books.length

/-- Helper: the initial store has canonical book ids 1..8. -/
theorem idsCanonical_init : idsCanonical initStore := by
  unfold idsCanonical
  decide

/-- Helper: `addBook` preserves canonical ids, since the new record gets
id `length + 1`. -/
theorem idsCanonical_addBook (s : Store) (nm : String) (aid : Int)
    (h : idsCanonical s) : idsCanonical (addBook s nm aid).2 := by
  unfold idsCanonical at h ⊢
  unfold addBook
  simp only [List.map_append, List.length_append, List.map_cons, List.map_nil,
    List.length_cons, List.length_nil]
  rw [canonicalIds, h]

/-- Helper: a sequence of `addBook` operations preserves canonical ids. -/
theorem idsCanonical_runOps (ops : List Op) (s : Store)
    (hops : ops.all Op.isAddBook = true) (h : idsCanonical s) :
    idsCanonical (runOps s ops) := by
  induction ops generalizing s with
  | nil => exact h
  | cons op ops ih =>
    rw [List.all_cons, Bool.and_eq_true] at hops
    cases op with
    | addBook n aid => exact ih (applyOp s (.addBook n aid)) hops.2 (idsCanonical_addBook s n aid h)
    | addAuthor n => exact absurd hops.1 (by simp [Op.isAddBook])

/-- C2 counterexample: the state reached from the initial store by a single
`addAuthor` call (no deletions involved) holds two records with id 5 in
the Book sequence — the original "The Hobbit" and the misfiled author
record — so the book ids are not pairwise distinct there. -/
theorem book_id_collision_counterexample :
    ((runOps initStore [Op.addAuthor "Ursula K. Le Guin"]).books.map BookRec.id).count 5 = 2 ∧
    ¬ ((runOps initStore [Op.addAuthor "Ursula K. Le Guin"]).books.map BookRec.id).Nodup := by
  constructor <;> decide

/-- C2 amended: in every state reached from the initial store by `addBook`
calls alone, the book ids are `1..length`, hence pairwise distinct; it is
the misfiled `addAuthor` append (not deletions) that can break uniqueness. -/
theorem book_ids_unique_without_addAuthor (ops : List Op)
    (hops : ops.all Op.isAddBook = true) :
    ((runOps initStore ops).books.map BookRec.id).Nodup := by
  have h := idsCanonical_runOps ops initStore hops idsCanonical_init
  rw [idsCanonical] at h
  rw [h]
  exact canonicalIds_nodup _

/-- Witness for the amended C2 at a concrete mutation sequence: one
`addBook` call from the initial store keeps the book ids distinct. -/
theorem book_ids_unique_witness :
    ([Op.addBook "Dune" 4].all Op.isAddBook = true) ∧
    ((runOps initStore [Op.addBook "Dune" 4]).books.map BookRec.id).Nodup :=
  ⟨by decide, book_ids_unique_without_addAuthor [Op.addBook "Dune" 4] (by decide)⟩
